import Mathlib

/-!
# Verification of the givemebot giveaway engine

A shallow embedding of the entry-accounting and weighted-lottery engine of the
`givemebot` Towns-protocol bot (source file `src/index.ts`, the version with the
interactive creation flow).  JavaScript `Map<string, T>` values are modelled as
insertion-ordered association lists, machine numbers (`number` used at integer
values, and `bigint`) as `Int`, and USD amounts (IEEE doubles in the source) as
exact rationals.  Stateful handlers are modelled as functions from the registry
of giveaways to the updated registry together with their observable result.
-/

namespace Givemebot

/-- Insertion-ordered association list, the model of a JavaScript
`Map<string, α>` (JS `Map` iterates keys in insertion order). -/
abbrev AList (α : Type) := List (String × α)

/-- Lookup, `Map.get(k)`: the value at the first entry whose key is `k`, if any. -/
def aGet {α : Type} : AList α → String → Option α
  | [], _ => none
  | (k', v') :: m, k => if k' = k then some v' else aGet m k

/-- Update, `Map.set(k, v)`: replace the value at the existing key in place,
keeping insertion order, or append a fresh entry at the end. -/
def aSet {α : Type} : AList α → String → α → AList α
  | [], k, v => [(k, v)]
  | (k', v') :: m, k, v => if k' = k then (k, v) :: m else (k', v') :: aSet m k v

/-- Deletion, `Map.delete(k)`: remove entries with key `k`. -/
def aDelete {α : Type} : AList α → String → AList α
  | [], _ => []
  | (k', v') :: m, k => if k' = k then aDelete m k else (k', v') :: aDelete m k

/-- The JS idiom `map.get(k) || 0`: the stored count, or `0` for an absent key. -/
def entGetD (m : AList Int) (k : String) : Int := (aGet m k).getD 0

/-- The `Giveaway` interface of `src/index.ts`: timestamps are epoch
milliseconds, `tipEntryFee` is a `bigint` amount of wei, the two entry maps are
participant → count. -/
structure Giveaway where
  channelId : String
  prize : String
  startTime : Int
  endTime : Int
  tipEntryFee : Int
  tipEntryCap : Int
  tipEntries : AList Int
  reactionEntries : AList Int
  isActive : Bool
  announcementMessageId : Option String
deriving DecidableEq

/-- The module-level `activeGiveaways : Map<string, Giveaway>`. -/
abbrev Registry := AList Giveaway

/-- Source `getGiveaway(channelId)`, i.e. `activeGiveaways.get(channelId) || null`. -/
def getGiveaway (r : Registry) (channelId : String) : Option Giveaway :=
  aGet r channelId

/-- Source `addReactionEntry(channelId, userId, count)`: no-op when the channel
has no giveaway or it is inactive, otherwise increments
`reactionEntries[userId]`. -/
def addReactionEntry (r : Registry) (channelId userId : String) (count : Int) :
    Registry :=
  match aGet r channelId with
  | none => r
  | some g =>
    if !g.isActive then r
    else
      let currentEntries := entGetD g.reactionEntries userId
      let updated := aSet g.reactionEntries userId (currentEntries + count)
      aSet r channelId { g with reactionEntries := updated }

/-- Source `addTipEntry(channelId, userId, count)`: cap-enforced credit of tip
entries, returning the number of entries actually added together with the
updated registry. -/
def addTipEntry (r : Registry) (channelId userId : String) (count : Int) :
    Int × Registry :=
  match aGet r channelId with
  | none => (0, r)
  | some g =>
    if !g.isActive then (0, r)
    else
      let currentTipEntries := entGetD g.tipEntries userId
      let remainingCap := g.tipEntryCap - currentTipEntries
      if remainingCap ≤ 0 then (0, r)
      else
        let entriesToAdd := min count remainingCap
        let updated := aSet g.tipEntries userId (currentTipEntries + entriesToAdd)
        (entriesToAdd, aSet r channelId { g with tipEntries := updated })

/-- Source `getTotalEntries(giveaway, userId)`: reaction entries plus tip
entries of one participant. -/
def getTotalEntries (g : Giveaway) (userId : String) : Int :=
  entGetD g.reactionEntries userId + entGetD g.tipEntries userId

/-- The crediting tail of the `bot.onTip` handler (after the receiver,
activity and expiry guards): `potentialEntries = Number(amount / tipEntryFee)`
(bigint division, which truncates toward zero, modelled by `Int.tdiv`), return
`0` when `potentialEntries < 1`, otherwise delegate to `addTipEntry`.  This is
the spec's `creditTip`. -/
def creditTip (r : Registry) (channelId sender : String) (amount : Int) :
    Int × Registry :=
  match aGet r channelId with
  | none => (0, r)
  | some g =>
    if !g.isActive then (0, r)
    else
      let potentialEntries := Int.tdiv amount g.tipEntryFee
      if potentialEntries < 1 then (0, r)
      else addTipEntry r channelId sender potentialEntries

/-- Fold a sequence of tip events `(channelId, sender, amount)` through
`creditTip`, keeping only the registry. -/
def runTips (r : Registry) (calls : List (String × String × Int)) : Registry :=
  calls.foldl (fun r c => (creditTip r c.1 c.2.1 c.2.2).2) r

/-- First-occurrence deduplication, carrying the keys already seen: the model
of iterating a JS `Set` built from a list (a `Set` keeps first insertions, in
order). -/
def dedupAux (seen : List String) : List String → List String
  | [] => []
  | a :: l => if a ∈ seen then dedupAux seen l else a :: dedupAux (a :: seen) l

/-- The participant set
`new Set([...reactionEntries.keys(), ...tipEntries.keys()])` used by
`selectWinner`, the `end` branch and `status`. -/
def allUsers (g : Giveaway) : List String :=
  dedupAux [] (g.reactionEntries.map Prod.fst ++ g.tipEntries.map Prod.fst)

/-- The weighted pool of `selectWinner`: each participant is pushed
`getTotalEntries` times (a non-positive count contributes nothing, exactly as
the JS `for` loop then runs zero times). -/
def weightedEntries (g : Giveaway) : List String :=
  (allUsers g).flatMap (fun u => List.replicate (getTotalEntries g u).toNat u)

/-- Source `selectWinner(giveaway)`: `null` on an empty participant set or an
empty pool, otherwise the pool element at index
`Math.floor(Math.random() * pool.length)`; the random index (always
`< pool.length` in JS since `Math.random() < 1`) is taken as the parameter
`randomIndex`. -/
def selectWinner (g : Giveaway) (randomIndex : Nat) : Option String :=
  if (allUsers g).isEmpty then none
  else if (weightedEntries g).isEmpty then none
  else (weightedEntries g).get? randomIndex

/-- Observable outcome of the `/giveaway end` admin branch. -/
inductive EndResult
  | noActiveGiveaway
  | noEntries
  | ended (winner : String) (winnerEntries : Int) (totalEntries : Int)
      (participants : Nat)
deriving DecidableEq

/-- The fold
`Array.from(allUsers).reduce((sum, u) => sum + getTotalEntries(g, u), 0)`. -/
def sumAllEntries (g : Giveaway) : Int :=
  (allUsers g).foldl (fun sum u => sum + getTotalEntries g u) 0

/-- The `end` branch of `onSlashCommand('giveaway')`: refuse when there is no
record for the channel or the record is inactive; otherwise mark the giveaway
inactive, draw a winner, and — only when a winner was drawn — report the
statistics and delete the record.  (On a `null` winner the handler returns
after the "no entries" message, leaving the now-inactive record in place.) -/
def endGiveaway (r : Registry) (channelId : String) (randomIndex : Nat) :
    EndResult × Registry :=
  match aGet r channelId with
  | none => (.noActiveGiveaway, r)
  | some g =>
    if !g.isActive then (.noActiveGiveaway, r)
    else
      let g2 := { g with isActive := false }
      let r2 := aSet r channelId g2
      match selectWinner g2 randomIndex with
      | none => (.noEntries, r2)
      | some winner =>
        (.ended winner (getTotalEntries g2 winner) (sumAllEntries g2)
            (allUsers g2).length,
          aDelete r2 channelId)

/-- The effect of `parseInt` on a string of ASCII digits. -/
def digitsToNat (ds : List Char) : Nat :=
  ds.foldl (fun n c => 10 * n + (c.toNat - Char.toNat '0')) 0

/-- The duration parsing of `createGiveaway`:
`durationStr.match(/^(\d+)([hdm])$/i)` followed by the unit conversion, giving
the duration in milliseconds, or `none` when the string does not match. -/
def parseDuration (s : String) : Option Int :=
  match s.data.getLast? with
  | none => none
  | some u =>
    let ds := s.data.dropLast
    if ds.isEmpty then none
    else if !ds.all Char.isDigit then none
    else
      let v : Int := (digitsToNat ds : Nat)
      if u.toLower = 'm' then some (v * 60 * 1000)
      else if u.toLower = 'h' then some (v * 60 * 60 * 1000)
      else if u.toLower = 'd' then some (v * 24 * 60 * 60 * 1000)
      else none

/-- The duration-string grammar exactly as the spec words it:
`^\d+[mhd]$`, case-insensitive — one or more ASCII digits followed by a single
unit letter, nothing else.  Stated independently of `parseDuration` so that the
parser can be proved to accept exactly this language. -/
def DurationGrammar (s : String) : Prop :=
  ∃ ds u, s.data = ds ++ [u] ∧ ds ≠ [] ∧ (∀ c ∈ ds, c.isDigit = true) ∧
    (u.toLower = 'm' ∨ u.toLower = 'h' ∨ u.toLower = 'd')

/-- Source `usdToWei(usdAmount)`, i.e.
`parseEther((usdAmount / ethPriceUsd).toString())`: the USD amount divided by
the ETH price, scaled to wei.  The IEEE-double division and the decimal-string
conversion of the source are modelled by exact rational arithmetic (exact at
the inputs used in the theorems below).  Note the source performs no
validation whatsoever here. -/
def usdToWei (ethPriceUsd usdAmount : ℚ) : Int :=
  Rat.floor (usdAmount / ethPriceUsd * 10 ^ 18)

/-- Definition following the SPEC's words (§4.1 `fiatToToken`), not the
source, for comparison with `usdToWei`: fail on a non-positive amount or rate,
otherwise return the integer smallest-unit token amount of
`fiatAmount / rate`. -/
def fiatToTokenSpec (fiatAmount rate : ℚ) : Option Int :=
  if fiatAmount ≤ 0 ∨ rate ≤ 0 then none
  else some (Rat.floor (fiatAmount / rate * 10 ^ 18))

/-- Observable outcome of `createGiveaway`. -/
inductive CreateResult
  | invalidDuration
  | alreadyActive
  | created
deriving DecidableEq

/-- Source `createGiveaway(handler, channelId, prize, durationStr, tipFeeUsd,
tipEntryCap)`: parse the duration (rejecting mismatches with the
invalid-duration error), refuse when an *active* giveaway already exists for
the channel, then freeze `usdToWei(tipFeeUsd)` and store the new record
(`announcementMessageId` is only attached after the announcement is posted,
hence `none` here). -/
def createGiveaway (r : Registry) (channelId prize durationStr : String)
    (now : Int) (tipFeeUsd ethPriceUsd : ℚ) (tipEntryCap : Int) :
    CreateResult × Registry :=
  match parseDuration durationStr with
  | none => (.invalidDuration, r)
  | some msDuration =>
    let existingActive :=
      match aGet r channelId with
      | some existing => existing.isActive
      | none => false
    if existingActive then (.alreadyActive, r)
    else
      let g : Giveaway :=
        { channelId := channelId
          prize := prize
          startTime := now
          endTime := now + msDuration
          tipEntryFee := usdToWei ethPriceUsd tipFeeUsd
          tipEntryCap := tipEntryCap
          tipEntries := []
          reactionEntries := []
          isActive := true
          announcementMessageId := none }
      (.created, aSet r channelId g)

/-- Observable outcome of the `set-fee` admin branch. -/
inductive SetFeeResult
  | invalidAmount
  | noActiveGiveaway
  | feeUpdated
deriving DecidableEq

/-- The `set-fee` branch of `onSlashCommand('giveaway')`: reject a
non-positive USD amount, require an active giveaway, then store
`usdToWei(feeUsd)` in the record.  (The source's `isNaN` guard has no
counterpart over exact rationals.) -/
def setFee (r : Registry) (channelId : String) (feeUsd ethPriceUsd : ℚ) :
    SetFeeResult × Registry :=
  if feeUsd ≤ 0 then (.invalidAmount, r)
  else
    match aGet r channelId with
    | none => (.noActiveGiveaway, r)
    | some g =>
      if !g.isActive then (.noActiveGiveaway, r)
      else
        let updated := usdToWei ethPriceUsd feeUsd
        (.feeUpdated, aSet r channelId { g with tipEntryFee := updated })

/-- Observable outcome of the `set-cap` admin branch. -/
inductive SetCapResult
  | invalidNumber
  | noActiveGiveaway
  | capUpdated
deriving DecidableEq

/-- The `set-cap` branch of `onSlashCommand('giveaway')`: reject a
non-positive integer, require an active giveaway, then update `tipEntryCap` in
place. -/
def setCap (r : Registry) (channelId : String) (cap : Int) :
    SetCapResult × Registry :=
  if cap ≤ 0 then (.invalidNumber, r)
  else
    match aGet r channelId with
    | none => (.noActiveGiveaway, r)
    | some g =>
      if !g.isActive then (.noActiveGiveaway, r)
      else (.capUpdated, aSet r channelId { g with tipEntryCap := cap })

/-- Inductive invariant behind claim C1: every recorded tip-entry count lies
within `[0, tipEntryCap]`, and the reaction ledger is (still) empty, as it
starts and as `creditTip` keeps it. -/
def TipLedgerInv (g : Giveaway) : Prop :=
  (∀ pv ∈ g.tipEntries, 0 ≤ pv.2 ∧ pv.2 ≤ g.tipEntryCap) ∧
    g.reactionEntries = []

/-- The invariant `TipLedgerInv`, lifted to every giveaway of the registry. -/
def RegistryTipInv (r : Registry) : Prop :=
  ∀ c g, aGet r c = some g → TipLedgerInv g

end Givemebot

namespace Givemebot

/-! ## Association-list lemmas -/

theorem aGet_aSet {α : Type} (m : AList α) (k k' : String) (v : α) :
    aGet (aSet m k v) k' = if k = k' then some v else aGet m k' := by
  induction m with
  | nil =>
    by_cases h : k = k' <;> simp [aGet, aSet, h]
  | cons hd tl ih =>
    obtain ⟨k₀, v₀⟩ := hd
    by_cases h₀ : k₀ = k
    · subst h₀
      by_cases h₁ : k₀ = k' <;> simp [aGet, aSet, h₁]
    · by_cases h₁ : k₀ = k'
      · subst h₁
        simp [aGet, aSet, h₀, Ne.symm h₀]
      · simp [aGet, aSet, h₀, h₁, ih]

theorem aGet_aSet_self {α : Type} (m : AList α) (k : String) (v : α) :
    aGet (aSet m k v) k = some v := by
  simp [aGet_aSet]

theorem aGet_aSet_ne {α : Type} (m : AList α) {k k' : String} (v : α)
    (h : k ≠ k') : aGet (aSet m k v) k' = aGet m k' := by
  simp [aGet_aSet, h]

theorem aGet_aDelete_self {α : Type} (m : AList α) (k : String) :
    aGet (aDelete m k) k = none := by
  induction m with
  | nil => simp [aGet, aDelete]
  | cons hd tl ih =>
    obtain ⟨k₀, v₀⟩ := hd
    by_cases h₀ : k₀ = k
    · simpa [aDelete, h₀]
    · simp [aDelete, aGet, h₀, ih]

theorem mem_aSet {α : Type} (m : AList α) (k : String) (v : α) :
    ∀ p ∈ aSet m k v, p = (k, v) ∨ p ∈ m := by
  induction m with
  | nil => simp [aSet]
  | cons hd tl ih =>
    obtain ⟨k₀, v₀⟩ := hd
    intro p hp
    by_cases h₀ : k₀ = k
    · simp [aSet, h₀] at hp
      rcases hp with h | h
      · exact Or.inl (by simp [h])
      · exact Or.inr (by simp [h])
    · simp [aSet, h₀] at hp
      rcases hp with h | h
      · exact Or.inr (by simp [h])
      · rcases ih p h with h' | h'
        · exact Or.inl h'
        · exact Or.inr (by simp [h'])

theorem aGet_mem {α : Type} {m : AList α} {k : String} {v : α}
    (h : aGet m k = some v) : (k, v) ∈ m := by
  induction m with
  | nil => simp [aGet] at h
  | cons hd tl ih =>
    obtain ⟨k₀, v₀⟩ := hd
    by_cases h₀ : k₀ = k
    · subst h₀
      simp [aGet] at h
      simp [h]
    · simp [aGet, h₀] at h
      simp [ih h]

end Givemebot

namespace Givemebot

/-! ## Deduplication and key lemmas -/

theorem mem_dedupAux (l : List String) :
    ∀ seen x, x ∈ dedupAux seen l ↔ x ∈ l ∧ x ∉ seen := by
  induction l with
  | nil => intro seen x; simp [dedupAux]
  | cons a l ih =>
    intro seen x
    by_cases ha : a ∈ seen <;>
      by_cases hxa : x = a <;>
        simp [dedupAux, ha, ih, hxa]

theorem nodup_dedupAux (l : List String) :
    ∀ seen, (dedupAux seen l).Nodup := by
  induction l with
  | nil => intro seen; simp [dedupAux]
  | cons a l ih =>
    intro seen
    by_cases ha : a ∈ seen
    · simpa [dedupAux, ha] using ih seen
    · rw [dedupAux, if_neg ha, List.nodup_cons]
      exact ⟨fun h => ((mem_dedupAux l _ a).1 h).2 (List.mem_cons_self a seen),
        ih _⟩

theorem mem_keys_aGet {α : Type} (m : AList α) (p : String)
    (h : p ∈ m.map Prod.fst) : ∃ v, aGet m p = some v := by
  induction m with
  | nil => simp at h
  | cons hd tl ih =>
    obtain ⟨k₀, v₀⟩ := hd
    by_cases h₀ : k₀ = p
    · exact ⟨v₀, by simp [aGet, h₀]⟩
    · simp only [List.map_cons, List.mem_cons] at h
      rcases h with h | h
      · exact absurd h.symm h₀
      · obtain ⟨v, hv⟩ := ih h
        exact ⟨v, by simp [aGet, h₀, hv]⟩

/-! ## The C1 cap invariant -/

theorem tip_map_update_bounds (m : AList Int) (cap : Int) (u : String)
    (count : Int) (hm : ∀ pv ∈ m, 0 ≤ pv.2 ∧ pv.2 ≤ cap) (hcount : 1 ≤ count)
    (hrc : 0 < cap - entGetD m u) :
    ∀ pv ∈ aSet m u (entGetD m u + min count (cap - entGetD m u)),
      0 ≤ pv.2 ∧ pv.2 ≤ cap := by
  have hcur : 0 ≤ entGetD m u := by
    unfold entGetD
    cases hc : aGet m u with
    | none => simp
    | some w =>
      have hw := hm (u, w) (aGet_mem hc)
      simpa using hw.1
  intro pv hpv
  rcases mem_aSet _ _ _ pv hpv with h | h
  · rw [h]
    show 0 ≤ entGetD m u + min count (cap - entGetD m u) ∧
      entGetD m u + min count (cap - entGetD m u) ≤ cap
    omega
  · exact hm pv h

theorem RegistryTipInv_aSet (r : Registry) (c : String) (g' : Giveaway)
    (hinv : RegistryTipInv r) (hg' : TipLedgerInv g') :
    RegistryTipInv (aSet r c g') := by
  intro c' g'' h
  rw [aGet_aSet] at h
  by_cases hc : c = c'
  · rw [if_pos hc] at h
    injection h with h
    exact h ▸ hg'
  · rw [if_neg hc] at h
    exact hinv c' g'' h

theorem addTipEntry_preserves_inv (r : Registry) (c u : String) (count : Int)
    (hinv : RegistryTipInv r) (hcount : 1 ≤ count) :
    RegistryTipInv (addTipEntry r c u count).2 := by
  cases hg : aGet r c with
  | none => simp only [addTipEntry, hg]; exact hinv
  | some g =>
    cases hact : g.isActive with
    | false => simp only [addTipEntry, hg, hact]; exact hinv
    | true =>
      by_cases hrc : g.tipEntryCap - entGetD g.tipEntries u ≤ 0
      · simp only [addTipEntry, hg, hact]
        rw [if_pos hrc]
        exact hinv
      · simp only [addTipEntry, hg, hact]
        rw [if_neg hrc]
        refine RegistryTipInv_aSet _ _ _ hinv ⟨?_, (hinv c g hg).2⟩
        exact tip_map_update_bounds g.tipEntries g.tipEntryCap u count
          (hinv c g hg).1 hcount (by omega)

theorem creditTip_preserves_inv (r : Registry) (c s : String) (a : Int)
    (hinv : RegistryTipInv r) : RegistryTipInv (creditTip r c s a).2 := by
  cases hg : aGet r c with
  | none => simp only [creditTip, hg]; exact hinv
  | some g =>
    cases hact : g.isActive with
    | false => simp only [creditTip, hg, hact]; exact hinv
    | true =>
      by_cases hpe : Int.tdiv a g.tipEntryFee < 1
      · simp only [creditTip, hg, hact]
        rw [if_pos hpe]
        exact hinv
      · simp only [creditTip, hg, hact]
        rw [if_neg hpe]
        exact addTipEntry_preserves_inv r c s (Int.tdiv a g.tipEntryFee) hinv
          (by omega)

theorem runTips_preserves_inv (calls : List (String × String × Int)) :
    ∀ r : Registry, RegistryTipInv r → RegistryTipInv (runTips r calls) := by
  induction calls with
  | nil => intro r h; exact h
  | cons cl cls ih =>
    intro r h
    exact ih _ (creditTip_preserves_inv r cl.1 cl.2.1 cl.2.2 h)

/-- **C1**: for every giveaway and every participant `p`, after any sequence
of `creditTip` calls starting from an empty ledger,
`0 ≤ tipEntries[p] ≤ tipEntryCap` holds. -/
theorem claim_C1_tip_entries_bounded (r0 : Registry)
    (calls : List (String × String × Int))
    (hinit : ∀ c g, aGet r0 c = some g →
      g.tipEntries = [] ∧ g.reactionEntries = [])
    (c p : String) (g : Giveaway)
    (hg : aGet (runTips r0 calls) c = some g) (hp : p ∈ allUsers g) :
    0 ≤ entGetD g.tipEntries p ∧ entGetD g.tipEntries p ≤ g.tipEntryCap := by
  have h0 : RegistryTipInv r0 := by
    intro c' g' h
    obtain ⟨h1, h2⟩ := hinit c' g' h
    exact ⟨by simp [h1], h2⟩
  have hinv : TipLedgerInv g := runTips_preserves_inv calls r0 h0 c g hg
  have hkeys : p ∈ g.tipEntries.map Prod.fst := by
    unfold allUsers at hp
    rw [hinv.2] at hp
    exact ((mem_dedupAux _ [] p).1 hp).1
  obtain ⟨v, hv⟩ := mem_keys_aGet _ p hkeys
  have hb := hinv.1 (p, v) (aGet_mem hv)
  unfold entGetD
  rw [hv]
  exact hb

/-- Witness for C1: a giveaway with fee 2 wei and cap 3, hit by two tips from
`alice` worth 5 resp. 4 potential entries, ends with exactly 3 recorded tip
entries, inside the bounds. -/
theorem claim_C1_tip_entries_bounded_witness :
    0 ≤ entGetD [("alice", (3 : Int))] "alice" ∧
      entGetD [("alice", (3 : Int))] "alice" ≤
        (⟨"chan", "p", 0, 1000, 2, 3, [("alice", 3)], [], true,
          none⟩ : Giveaway).tipEntryCap :=
  claim_C1_tip_entries_bounded
    [("chan", ⟨"chan", "p", 0, 1000, 2, 3, [], [], true, none⟩)]
    [("chan", "alice", 10), ("chan", "alice", 9)]
    (by
      intro c g h
      simp only [aGet] at h
      split at h
      · injection h with h
        rw [← h]
        exact ⟨rfl, rfl⟩
      · cases h)
    "chan" "alice"
    ⟨"chan", "p", 0, 1000, 2, 3, [("alice", 3)], [], true, none⟩
    rfl (by decide)

end Givemebot

namespace Givemebot

/-! ## Truncating division as floor, for non-negative dividends -/

theorem tdiv_floor_bounds (a b : Int) (ha : 0 ≤ a) (hb : 0 < b) :
    b * Int.tdiv a b ≤ a ∧ a < b * (Int.tdiv a b + 1) := by
  rw [Int.tdiv_eq_ediv ha (le_of_lt hb)]
  have h := Int.ediv_add_emod a b
  have h2 := Int.emod_nonneg a (ne_of_gt hb)
  have h3 := Int.emod_lt_of_pos a hb
  constructor
  · linarith
  · rw [mul_add, mul_one]
    linarith

/-- **C2**: for an active giveaway, `creditTip` computes
`potentialEntries = ⌊amount / tipEntryFee⌋` (first conjunct: the computed
quotient is characterised as the floor); a tip below one entry grants nothing
and leaves the registry unchanged; with the cap already reached it grants
nothing and leaves the registry unchanged; otherwise it grants exactly
`min(potentialEntries, tipEntryCap - tipEntries[p])`, adds that amount to
`tipEntries[p]` and returns it. -/
theorem claim_C2_creditTip_functional (r : Registry) (c p : String) (a : Int)
    (g : Giveaway) (hg : aGet r c = some g) (hact : g.isActive = true)
    (ha : 0 ≤ a) (hfee : 0 < g.tipEntryFee) :
    (g.tipEntryFee * Int.tdiv a g.tipEntryFee ≤ a ∧
      a < g.tipEntryFee * (Int.tdiv a g.tipEntryFee + 1)) ∧
    (Int.tdiv a g.tipEntryFee < 1 → creditTip r c p a = (0, r)) ∧
    (1 ≤ Int.tdiv a g.tipEntryFee →
      g.tipEntryCap - entGetD g.tipEntries p ≤ 0 →
      creditTip r c p a = (0, r)) ∧
    (1 ≤ Int.tdiv a g.tipEntryFee →
      0 < g.tipEntryCap - entGetD g.tipEntries p →
      creditTip r c p a =
        (min (Int.tdiv a g.tipEntryFee) (g.tipEntryCap - entGetD g.tipEntries p), aSet r c { g with tipEntries := aSet g.tipEntries p (entGetD g.tipEntries p + min (Int.tdiv a g.tipEntryFee) (g.tipEntryCap - entGetD g.tipEntries p)) })) := by
  have hbool : (!g.isActive) = false := by rw [hact]; rfl
  refine ⟨tdiv_floor_bounds a g.tipEntryFee ha hfee, ?_, ?_, ?_⟩
  · intro hpe
    simp only [creditTip, hg, hbool]
    rw [if_pos hpe]
    rfl
  · intro h1 h2
    simp only [creditTip, hg, hbool]
    rw [if_neg (by omega : ¬ Int.tdiv a g.tipEntryFee < 1)]
    simp only [addTipEntry, hg, hbool]
    rw [if_pos h2]
    rfl
  · intro h1 h2
    simp only [creditTip, hg, hbool]
    rw [if_neg (by omega : ¬ Int.tdiv a g.tipEntryFee < 1)]
    simp only [addTipEntry, hg, hbool]
    rw [if_neg (by omega : ¬ g.tipEntryCap - entGetD g.tipEntries p ≤ 0)]
    rfl

/-- Witness for C2, the spec's Scenario 2: with fee 1 wei, cap 10 and no prior
tip entries, a tip worth 15 potential entries records exactly 10 tip entries
and returns 10. -/
theorem claim_C2_creditTip_functional_witness :
    creditTip [("c2", (⟨"c2", "prize", 0, 1000, 1, 10, [], [], true, none⟩ : Giveaway))] "c2" "alice" 15 =
      (10, [("c2", (⟨"c2", "prize", 0, 1000, 1, 10, [("alice", 10)], [], true, none⟩ : Giveaway))]) := by
  have h := (claim_C2_creditTip_functional
    [("c2", (⟨"c2", "prize", 0, 1000, 1, 10, [], [], true, none⟩ : Giveaway))]
    "c2" "alice" 15
    (⟨"c2", "prize", 0, 1000, 1, 10, [], [], true, none⟩ : Giveaway)
    rfl rfl (by decide) (by decide)).2.2.2 (by decide) (by decide)
  rw [h]
  decide

/-- **C8**: on an inactive giveaway (`isActive = false`), reaction crediting
and tip crediting leave the registry — in particular both entry maps —
completely unchanged, and tip crediting returns 0. -/
theorem claim_C8_inactive_noop (r : Registry) (c u : String) (g : Giveaway)
    (hg : aGet r c = some g) (hina : g.isActive = false) :
    (∀ n : Int, addReactionEntry r c u n = r) ∧
    (∀ a : Int, creditTip r c u a = (0, r)) ∧
    (∀ count : Int, addTipEntry r c u count = (0, r)) := by
  refine ⟨?_, ?_, ?_⟩ <;> intro x <;>
    simp only [addReactionEntry, creditTip, addTipEntry, hg, hina] <;> rfl

/-- Witness for C8: an inactive giveaway with one recorded entry of each kind
is untouched by a reaction and by a tip, and the tip reports 0 entries. -/
theorem claim_C8_inactive_noop_witness :
    addReactionEntry [("c8", (⟨"c8", "prize", 0, 1000, 1, 10, [("bob", 2)], [("bob", 1)], false, none⟩ : Giveaway))] "c8" "bob" 1 =
      [("c8", (⟨"c8", "prize", 0, 1000, 1, 10, [("bob", 2)], [("bob", 1)], false, none⟩ : Giveaway))] ∧
    creditTip [("c8", (⟨"c8", "prize", 0, 1000, 1, 10, [("bob", 2)], [("bob", 1)], false, none⟩ : Giveaway))] "c8" "bob" 5 =
      (0, [("c8", (⟨"c8", "prize", 0, 1000, 1, 10, [("bob", 2)], [("bob", 1)], false, none⟩ : Giveaway))]) := by
  have h := claim_C8_inactive_noop
    [("c8", (⟨"c8", "prize", 0, 1000, 1, 10, [("bob", 2)], [("bob", 1)], false, none⟩ : Giveaway))]
    "c8" "bob"
    (⟨"c8", "prize", 0, 1000, 1, 10, [("bob", 2)], [("bob", 1)], false, none⟩ : Giveaway)
    rfl rfl
  exact ⟨h.1 1, h.2.1 5⟩

/-- **C10**: the `set-cap` branch changes only the giveaway's `tipEntryCap`
field — both entry maps are untouched; and once a participant's stored tip
count meets or exceeds the (new, lowered) cap, every subsequent `creditTip`
for that participant returns 0 and changes nothing. -/
theorem claim_C10_setCap_frame (r : Registry) (c : String) (cap : Int)
    (g : Giveaway) (hg : aGet r c = some g) (hact : g.isActive = true)
    (hcap : 0 < cap) :
    setCap r c cap = (.capUpdated, aSet r c { g with tipEntryCap := cap }) ∧
    ({ g with tipEntryCap := cap } : Giveaway).tipEntries = g.tipEntries ∧
    ({ g with tipEntryCap := cap } : Giveaway).reactionEntries =
      g.reactionEntries ∧
    (∀ (p : String) (a : Int), cap ≤ entGetD g.tipEntries p →
      creditTip (aSet r c { g with tipEntryCap := cap }) c p a =
        (0, aSet r c { g with tipEntryCap := cap })) := by
  have hbool : (!g.isActive) = false := by rw [hact]; rfl
  refine ⟨?_, rfl, rfl, ?_⟩
  · simp only [setCap, hg, hbool]
    rw [if_neg (by omega : ¬ cap ≤ 0)]
    rfl
  · intro p a hle
    simp only [creditTip, aGet_aSet_self, hbool]
    by_cases hpe : Int.tdiv a g.tipEntryFee < 1
    · rw [if_pos hpe]
      rfl
    · rw [if_neg hpe]
      simp only [addTipEntry, aGet_aSet_self, hbool]
      rw [if_pos (by omega : cap - entGetD g.tipEntries p ≤ 0)]
      rfl

/-- Witness for C10: lowering the cap from 10 to 3 under `alice`'s stored
count of 5 leaves the ledger intact, and a later tip worth 100 potential
entries grants nothing. -/
theorem claim_C10_setCap_frame_witness :
    setCap [("cX", (⟨"cX", "prize", 0, 1000, 1, 10, [("alice", 5)], [], true, none⟩ : Giveaway))] "cX" 3 =
      (.capUpdated, [("cX", (⟨"cX", "prize", 0, 1000, 1, 3, [("alice", 5)], [], true, none⟩ : Giveaway))]) ∧
    creditTip [("cX", (⟨"cX", "prize", 0, 1000, 1, 3, [("alice", 5)], [], true, none⟩ : Giveaway))] "cX" "alice" 100 =
      (0, [("cX", (⟨"cX", "prize", 0, 1000, 1, 3, [("alice", 5)], [], true, none⟩ : Giveaway))]) := by
  have h := claim_C10_setCap_frame
    [("cX", (⟨"cX", "prize", 0, 1000, 1, 10, [("alice", 5)], [], true, none⟩ : Giveaway))]
    "cX" 3
    (⟨"cX", "prize", 0, 1000, 1, 10, [("alice", 5)], [], true, none⟩ : Giveaway)
    rfl rfl (by decide)
  exact ⟨h.1, h.2.2.2 "alice" 100 (by decide)⟩

end Givemebot

namespace Givemebot

/-- **C5** (the code against the claim): `end` on a channel whose record is
Expired (`isActive = false`, as left by the sweep) refuses with the
no-active-giveaway reply and keeps the record instead of drawing and removing
it; and `end` on an Active giveaway with zero participants reports the
no-entries result but also keeps the now-inactive record instead of removing
it — though a subsequent `create` on that channel does succeed. -/
theorem claim_C5_end_expired_and_no_entries :
    endGiveaway [("c5", (⟨"c5", "prize", 0, 1000, 1, 10, [("alice", 2)], [], false, none⟩ : Giveaway))] "c5" 0 =
      (.noActiveGiveaway, [("c5", (⟨"c5", "prize", 0, 1000, 1, 10, [("alice", 2)], [], false, none⟩ : Giveaway))]) ∧
    endGiveaway [("c5z", (⟨"c5z", "prize", 0, 1000, 1, 10, [], [], true, none⟩ : Giveaway))] "c5z" 0 =
      (.noEntries, [("c5z", (⟨"c5z", "prize", 0, 1000, 1, 10, [], [], false, none⟩ : Giveaway))]) ∧
    (createGiveaway [("c5z", (⟨"c5z", "prize", 0, 1000, 1, 10, [], [], false, none⟩ : Giveaway))] "c5z" "prize2" "1h" 0 1 1 10).1 = .created := by
  refine ⟨?_, ?_, ?_⟩ <;> decide

/-- **C6 counterexample**: a record in Expired state (`isActive = false`)
exists for the channel, yet `create` returns success instead of failing with
`AlreadyActive` — falsifying "fails with AlreadyActive if and only if a record
in Active or Expired state exists". -/
theorem claim_C6_counterexample :
    aGet [("c6", (⟨"c6", "old", 0, 1000, 1, 10, [("alice", 2)], [], false, none⟩ : Giveaway))] "c6" =
      some (⟨"c6", "old", 0, 1000, 1, 10, [("alice", 2)], [], false, none⟩ : Giveaway) ∧
    (⟨"c6", "old", 0, 1000, 1, 10, [("alice", 2)], [], false, none⟩ : Giveaway).isActive = false ∧
    (createGiveaway [("c6", (⟨"c6", "old", 0, 1000, 1, 10, [("alice", 2)], [], false, none⟩ : Giveaway))] "c6" "new" "24h" 0 1 1 10).1 = .created := by
  refine ⟨rfl, rfl, ?_⟩
  decide

/-- **C6 (amended)**: given a well-formed duration, `create` fails with
`AlreadyActive` iff an *Active* record exists for the channel — an Expired
record does not block creation; and after any successful `end` (a draw or the
no-entries result) the same `create` call succeeds. -/
theorem claim_C6_create_blocking (r : Registry) (c pz d : String) (now : Int)
    (fee rate : ℚ) (cap ms : Int) (hd : parseDuration d = some ms) :
    ((createGiveaway r c pz d now fee rate cap).1 = .alreadyActive ↔
      ∃ g, aGet r c = some g ∧ g.isActive = true) ∧
    (∀ (i : Nat) (res : EndResult) (r2 : Registry),
      endGiveaway r c i = (res, r2) → res ≠ .noActiveGiveaway →
      (createGiveaway r2 c pz d now fee rate cap).1 = .created) := by
  constructor
  · cases hg : aGet r c with
    | none => simp [createGiveaway, hd, hg]
    | some g =>
      cases hact : g.isActive with
      | true => simp [createGiveaway, hd, hg, hact]
      | false => simp [createGiveaway, hd, hg, hact]
  · intro i res r2 hend hne
    cases hg : aGet r c with
    | none =>
      simp only [endGiveaway, hg] at hend
      obtain ⟨h1, h2⟩ := Prod.mk.injEq .. ▸ hend
      exact absurd h1.symm hne
    | some g =>
      cases hact : g.isActive with
      | false =>
        simp [endGiveaway, hg, hact] at hend
        exact absurd hend.1.symm hne
      | true =>
        simp only [endGiveaway, hg, hact] at hend
        rcases hw : selectWinner { g with isActive := false } i with _ | w
        · rw [hw] at hend
          simp at hend
          obtain ⟨h1, h2⟩ := hend
          subst h2
          simp [createGiveaway, hd, aGet_aSet_self]
        · rw [hw] at hend
          simp at hend
          obtain ⟨h1, h2⟩ := hend
          subst h2
          simp [createGiveaway, hd, aGet_aDelete_self]

/-- Witness for C6 (amended): on a channel with an Active giveaway the same
`create` call fails with `AlreadyActive` before `end` and succeeds after the
`end` draw removed the record. -/
theorem claim_C6_create_blocking_witness :
    (createGiveaway [("w6", (⟨"w6", "old", 0, 1000, 1, 5, [], [("bob", 1)], true, none⟩ : Giveaway))] "w6" "new" "1h" 0 1 1 5).1 = .alreadyActive ∧
    (createGiveaway [] "w6" "new" "1h" 0 1 1 5).1 = .created := by
  have h := claim_C6_create_blocking
    [("w6", (⟨"w6", "old", 0, 1000, 1, 5, [], [("bob", 1)], true, none⟩ : Giveaway))]
    "w6" "new" "1h" 0 1 1 5 3600000 rfl
  refine ⟨h.1.mpr ⟨(⟨"w6", "old", 0, 1000, 1, 5, [], [("bob", 1)], true, none⟩ : Giveaway), rfl, rfl⟩, ?_⟩
  exact h.2 0 (.ended "bob" 1 1 1) [] (by decide) (by decide)

end Givemebot

namespace Givemebot

theorem parseDuration_isSome_iff (s : String) :
    (parseDuration s).isSome = true ↔ DurationGrammar s := by
  rcases List.eq_nil_or_concat s.data with h | ⟨ds, u, h⟩
  · have hl : s.data.getLast? = none := by rw [h]; rfl
    simp only [parseDuration, hl]
    constructor
    · intro hF; simp at hF
    · rintro ⟨ds, u, hs, -, -, -⟩
      rw [h] at hs
      exact absurd hs.symm (by simp)
  · rw [List.concat_eq_append] at h
    have hl : s.data.getLast? = some u := by rw [h]; exact List.getLast?_concat _
    have hdl : s.data.dropLast = ds := by rw [h]; exact List.dropLast_concat
    have hgram : DurationGrammar s ↔
        (ds ≠ [] ∧ (∀ c ∈ ds, c.isDigit = true) ∧
          (u.toLower = 'm' ∨ u.toLower = 'h' ∨ u.toLower = 'd')) := by
      constructor
      · rintro ⟨ds', u', hs', hne, hdig, hu⟩
        have heq : ds' ++ [u'] = ds ++ [u] := hs'.symm.trans h
        have h1 : ds' = ds := by
          have h2 := congrArg List.dropLast heq
          rwa [List.dropLast_concat, List.dropLast_concat] at h2
        have h2 : u' = u := by
          have h3 := congrArg List.getLast? heq
          rw [List.getLast?_concat, List.getLast?_concat] at h3
          exact Option.some.inj h3
        exact ⟨h1 ▸ hne, h1 ▸ hdig, h2 ▸ hu⟩
      · rintro ⟨hne, hdig, hu⟩
        exact ⟨ds, u, h, hne, hdig, hu⟩
    rw [hgram]
    simp only [parseDuration, hl, hdl]
    by_cases hds : ds.isEmpty
    · rw [if_pos hds]
      simp [List.isEmpty_iff.mp hds]
    · rw [if_neg hds]
      have hne : ds ≠ [] := by
        intro hnil
        exact hds (by simp [hnil])
      by_cases hall : ds.all Char.isDigit = true
      · have hb : (!ds.all Char.isDigit) = false := by rw [hall]; rfl
        rw [hb, if_neg (by simp : ¬ (false = true))]
        by_cases hm : u.toLower = 'm'
        · rw [if_pos hm]
          simp [hne, hm]
          exact List.all_eq_true.mp hall
        · rw [if_neg hm]
          by_cases hh : u.toLower = 'h'
          · rw [if_pos hh]
            simp [hne, hh]
            exact List.all_eq_true.mp hall
          · rw [if_neg hh]
            by_cases hdu : u.toLower = 'd'
            · rw [if_pos hdu]
              simp [hne, hdu]
              exact List.all_eq_true.mp hall
            · rw [if_neg hdu]
              simp [hm, hh, hdu]
      · have hb : (!ds.all Char.isDigit) = true := by
          cases hx : ds.all Char.isDigit
          · rfl
          · exact absurd hx hall
        rw [hb, if_pos rfl]
        constructor
        · intro hF; simp at hF
        · rintro ⟨-, hdig, -⟩
          exact absurd (List.all_eq_true.mpr hdig) hall

/-- **C7**: `create` accepts exactly the duration strings matching
`^\d+[mhd]$`, case-insensitively; `"24h"` parses to 24 hours and `"2d"` to 48
hours of milliseconds (and `"24H"` is also accepted), while `"x"` and `"24"`
are rejected; a rejected duration yields the invalid-duration error with the
registry unchanged, and an accepted one creates a giveaway with
`endTime = startTime + duration`. -/
theorem claim_C7_duration_grammar (s : String) (r : Registry)
    (c pz d : String) (now : Int) (fee rate : ℚ) (cap ms : Int) :
    ((parseDuration s).isSome = true ↔ DurationGrammar s) ∧
    parseDuration "24h" = some 86400000 ∧
    parseDuration "2d" = some 172800000 ∧
    parseDuration "24H" = some 86400000 ∧
    parseDuration "x" = none ∧
    parseDuration "24" = none ∧
    (parseDuration d = none →
      createGiveaway r c pz d now fee rate cap = (.invalidDuration, r)) ∧
    (parseDuration d = some ms → aGet r c = none →
      ∃ g, createGiveaway r c pz d now fee rate cap = (.created, aSet r c g) ∧
        g.startTime = now ∧ g.endTime = now + ms ∧ g.isActive = true) := by
  refine ⟨parseDuration_isSome_iff s, by decide, by decide, by decide,
    by decide, by decide, ?_, ?_⟩
  · intro hnone
    simp [createGiveaway, hnone]
  · intro hsome hnone
    refine ⟨{ channelId := c, prize := pz, startTime := now, endTime := now + ms, tipEntryFee := usdToWei rate fee, tipEntryCap := cap, tipEntries := [], reactionEntries := [], isActive := true, announcementMessageId := none }, ?_, rfl, rfl, rfl⟩
    simp [createGiveaway, hsome, hnone]

/-- Witness for C7: the grammar accepts `"30m"`, a malformed duration `"x"`
leaves the registry unchanged, and `"24h"` at start time 5 creates a giveaway
ending at `5 + 86400000` milliseconds. -/
theorem claim_C7_duration_grammar_witness :
    (parseDuration "30m").isSome = true ∧
    createGiveaway [] "cw" "pz" "x" 5 1 1 10 = (.invalidDuration, []) ∧
    ∃ g, createGiveaway [] "cw" "pz" "24h" 5 1 1 10 = (.created, aSet [] "cw" g) ∧
      g.startTime = 5 ∧ g.endTime = 5 + 86400000 ∧ g.isActive = true := by
  have h := claim_C7_duration_grammar "30m" [] "cw" "pz" "x" 5 1 1 10 86400000
  have h24 := claim_C7_duration_grammar "30m" [] "cw" "pz" "24h" 5 1 1 10 86400000
  refine ⟨?_, h.2.2.2.2.2.2.1 (by decide), h24.2.2.2.2.2.2.2 (by decide) rfl⟩
  exact (claim_C7_duration_grammar "30m" [] "cw" "pz" "x" 5 1 1 10 0).1.mpr
    ⟨['3', '0'], 'm', rfl, by decide, by decide, by decide⟩

end Givemebot

namespace Givemebot

/-! ## The weighted pool -/

theorem mem_allUsers (g : Giveaway) (p : String) :
    p ∈ allUsers g ↔
      (p ∈ g.reactionEntries.map Prod.fst ∨ p ∈ g.tipEntries.map Prod.fst) := by
  unfold allUsers
  rw [mem_dedupAux]
  simp

theorem nodup_allUsers (g : Giveaway) : (allUsers g).Nodup :=
  nodup_dedupAux _ _

theorem count_flatMap_replicate (l : List String) (f : String → Nat)
    (hnd : l.Nodup) (p : String) :
    (l.flatMap (fun u => List.replicate (f u) u)).count p =
      if p ∈ l then f p else 0 := by
  induction l with
  | nil => simp
  | cons a t ih =>
    obtain ⟨hna, hnt⟩ := List.nodup_cons.mp hnd
    rw [List.flatMap_cons, List.count_append, List.count_replicate, ih hnt]
    by_cases hap : p = a
    · subst hap
      simp [hna]
    · simp [hap, Ne.symm hap]

theorem length_flatMap_replicate (l : List String) (f : String → Nat) :
    (l.flatMap (fun u => List.replicate (f u) u)).length = (l.map f).sum := by
  induction l with
  | nil => simp
  | cons a t ih => simp [List.flatMap_cons, ih]

theorem count_range_get (l : List String) (p : String) :
    ((List.range l.length).filter (fun i => decide (l.get? i = some p))).length
      = l.count p := by
  induction l with
  | nil => simp
  | cons a t ih =>
    rw [List.length_cons, List.range_succ_eq_map, List.filter_cons]
    have hcomp : ((fun i => decide ((a :: t).get? i = some p)) ∘ Nat.succ) =
        (fun i => decide (t.get? i = some p)) := rfl
    by_cases hap : a = p
    · subst hap
      rw [if_pos (by simp), List.length_cons, List.filter_map, List.length_map,
        hcomp, ih, List.count_cons]
      simp
    · rw [if_neg (by simp [hap]), List.filter_map, List.length_map, hcomp, ih,
        List.count_cons]
      simp [hap]

theorem count_weightedEntries (g : Giveaway) (p : String) :
    (weightedEntries g).count p =
      if p ∈ allUsers g then (getTotalEntries g p).toNat else 0 :=
  count_flatMap_replicate _ _ (nodup_allUsers g) p

theorem length_weightedEntries (g : Giveaway) :
    (weightedEntries g).length =
      ((allUsers g).map (fun u => (getTotalEntries g u).toNat)).sum :=
  length_flatMap_replicate _ _

theorem selectWinner_eq_get (g : Giveaway) (i : Nat)
    (hi : i < (weightedEntries g).length) :
    selectWinner g i = (weightedEntries g).get? i := by
  have hw : (weightedEntries g).isEmpty = false := by
    cases hwe : weightedEntries g with
    | nil => rw [hwe] at hi; simp at hi
    | cons a t => rfl
  have ha : (allUsers g).isEmpty = false := by
    cases hau : allUsers g with
    | nil =>
      exfalso
      have hnil : weightedEntries g = [] := by
        unfold weightedEntries
        rw [hau]
        rfl
      rw [hnil] at hi
      simp at hi
    | cons a t => rfl
  unfold selectWinner
  rw [ha, hw]
  rfl

/-- **C3**: in `selectWinner`'s pool every participant `p` appears exactly
`totalEntries(p)` times, the pool size is the sum of `totalEntries` over all
participants, and the draw returns the pool element at the random index, so of
the `poolSize` equally likely indices exactly `totalEntries(p)` make `p` the
winner — the win probability is `totalEntries(p) / Σ totalEntries`. -/
theorem claim_C3_weighted_pool (g : Giveaway) :
    (∀ p ∈ allUsers g,
      (weightedEntries g).count p = (getTotalEntries g p).toNat) ∧
    (weightedEntries g).length =
      ((allUsers g).map (fun u => (getTotalEntries g u).toNat)).sum ∧
    (∀ p : String,
      ((List.range (weightedEntries g).length).filter
          (fun i => decide (selectWinner g i = some p))).length =
        (weightedEntries g).count p) := by
  refine ⟨?_, length_weightedEntries g, ?_⟩
  · intro p hp
    rw [count_weightedEntries, if_pos hp]
  · intro p
    have hcg : ∀ i ∈ List.range (weightedEntries g).length,
        (fun i => decide (selectWinner g i = some p)) i =
          (fun i => decide ((weightedEntries g).get? i = some p)) i := by
      intro i hi
      show decide (selectWinner g i = some p) =
        decide ((weightedEntries g).get? i = some p)
      rw [selectWinner_eq_get g i (List.mem_range.mp hi)]
    rw [List.filter_congr hcg, count_range_get]

/-- Witness for C3: with reaction entries `{A: 2}` and tip entries `{B: 4}`,
`A` appears twice in a pool of six. -/
theorem claim_C3_weighted_pool_witness :
    (weightedEntries (⟨"c3", "p", 0, 1000, 1, 10, [("B", 4)], [("A", 2)], true, none⟩ : Giveaway)).count "A" = 2 ∧
    (weightedEntries (⟨"c3", "p", 0, 1000, 1, 10, [("B", 4)], [("A", 2)], true, none⟩ : Giveaway)).length = 6 := by
  constructor
  · rw [(claim_C3_weighted_pool (⟨"c3", "p", 0, 1000, 1, 10, [("B", 4)], [("A", 2)], true, none⟩ : Giveaway)).1 "A" (by decide)]
    decide
  · rw [(claim_C3_weighted_pool (⟨"c3", "p", 0, 1000, 1, 10, [("B", 4)], [("A", 2)], true, none⟩ : Giveaway)).2.1]
    decide

/-- **C4**: `selectWinner` returns `none` on an empty participant set; under
the ledger invariant (every participant holds at least one entry) a non-empty
participant set gives a non-empty pool and every valid draw index yields a
winner (together: `none` iff the participant set is empty); any winner is a
participant of the ledger with strictly positive `totalEntries`; and when
every participant's entry count is zero (or below) the draw defends by
returning `none`. -/
theorem claim_C4_selectWinner_none_iff (g : Giveaway) :
    (∀ i, allUsers g = [] → selectWinner g i = none) ∧
    ((∀ p ∈ allUsers g, 1 ≤ getTotalEntries g p) → allUsers g ≠ [] →
      0 < (weightedEntries g).length ∧
      ∀ i, i < (weightedEntries g).length → selectWinner g i ≠ none) ∧
    (∀ i w, selectWinner g i = some w →
      w ∈ allUsers g ∧ 0 < getTotalEntries g w) ∧
    ((∀ p ∈ allUsers g, getTotalEntries g p ≤ 0) →
      ∀ i, selectWinner g i = none) := by
  refine ⟨?_, ?_, ?_, ?_⟩
  · intro i h
    unfold selectWinner
    rw [h]
    rfl
  · intro hpos hne
    have hlen : 0 < (weightedEntries g).length := by
      cases hau : allUsers g with
      | nil => exact absurd hau hne
      | cons a t =>
        have h1 : 1 ≤ getTotalEntries g a :=
          hpos a (by rw [hau]; exact List.mem_cons_self a t)
        unfold weightedEntries
        rw [hau, List.flatMap_cons, List.length_append, List.length_replicate]
        omega
    refine ⟨hlen, ?_⟩
    intro i hi
    rw [selectWinner_eq_get g i hi, List.get?_eq_get hi]
    simp
  · intro i w hw
    have hmem : w ∈ weightedEntries g := by
      unfold selectWinner at hw
      by_cases h1 : (allUsers g).isEmpty = true
      · rw [if_pos h1] at hw; cases hw
      · rw [if_neg h1] at hw
        by_cases h2 : (weightedEntries g).isEmpty = true
        · rw [if_pos h2] at hw; cases hw
        · rw [if_neg h2] at hw
          exact List.get?_mem hw
    obtain ⟨u, hu, hwu⟩ := List.mem_flatMap.mp hmem
    obtain ⟨hn0, rfl⟩ := List.mem_replicate.mp hwu
    exact ⟨hu, by omega⟩
  · intro hz i
    have hwe : weightedEntries g = [] := by
      unfold weightedEntries
      rw [List.flatMap_eq_nil_iff]
      intro u hu
      have hu0 := hz u hu
      rw [List.replicate_eq_nil_iff]
      omega
    unfold selectWinner
    rw [hwe]
    by_cases h1 : (allUsers g).isEmpty = true
    · rw [if_pos h1]
    · rw [if_neg h1]
      rfl

/-- Witness for C4: one participant with one reaction entry gives a pool of
size one whose draw at index 0 picks a winner, while a giveaway with no
participants draws `none`. -/
theorem claim_C4_selectWinner_none_iff_witness :
    0 < (weightedEntries (⟨"c4", "p", 0, 1000, 1, 10, [], [("A", 1)], true, none⟩ : Giveaway)).length ∧
    selectWinner (⟨"c4", "p", 0, 1000, 1, 10, [], [("A", 1)], true, none⟩ : Giveaway) 0 ≠ none ∧
    selectWinner (⟨"ce", "p", 0, 1000, 1, 10, [], [], true, none⟩ : Giveaway) 7 = none := by
  have h := (claim_C4_selectWinner_none_iff
    (⟨"c4", "p", 0, 1000, 1, 10, [], [("A", 1)], true, none⟩ : Giveaway)).2.1
    (by decide) (by decide)
  exact ⟨h.1, h.2 0 (by decide),
    (claim_C4_selectWinner_none_iff
      (⟨"ce", "p", 0, 1000, 1, 10, [], [], true, none⟩ : Giveaway)).1 7 rfl⟩

end Givemebot

namespace Givemebot

/-- **C9 counterexample**: `usdToWei` applied to the non-positive fiat amount
0 does not fail with `InvalidAmount` — it simply returns 0 wei — whereas the
spec's `fiatToToken` contract rejects `fiatAmount ≤ 0`. -/
theorem claim_C9_counterexample :
    usdToWei 3000 0 = 0 ∧ fiatToTokenSpec 0 3000 = none := by
  constructor
  · unfold usdToWei
    norm_num [Rat.floor_def']
  · simp [fiatToTokenSpec]

/-- **C9 (amended)**: the converter performs no validation and never fails —
`usdToWei` maps 0 to 0 instead of rejecting it; non-positive fees are rejected
only at the command level (the `set-fee` branch), while the direct `create`
path passes its fee through unvalidated, so a giveaway whose `tipEntryFee` is
0 wei is creatable and that zero fee reaches tip accounting as the divisor of
`creditTip`. -/
theorem claim_C9_no_converter_validation (r : Registry) (c : String)
    (feeUsd rate : ℚ) (hfee : feeUsd ≤ 0) :
    setFee r c feeUsd rate = (.invalidAmount, r) ∧
    usdToWei 3000 0 = 0 ∧
    (createGiveaway [] "c9" "prize" "1h" 0 0 3000 10).2 =
      [("c9", (⟨"c9", "prize", 0, 3600000, 0, 10, [], [], true, none⟩ : Giveaway))] := by
  have hw0 : usdToWei 3000 0 = 0 := by
    unfold usdToWei
    norm_num [Rat.floor_def']
  have hp : parseDuration "1h" = some 3600000 := by decide
  refine ⟨?_, hw0, ?_⟩
  · simp only [setFee]
    rw [if_pos hfee]
  · simp only [createGiveaway, hp, hw0]
    rfl

/-- Witness for C9 (amended): the `set-fee` command rejects the fee 0 that the
converter itself happily converts. -/
theorem claim_C9_no_converter_validation_witness :
    setFee [] "w9" 0 3000 = (.invalidAmount, []) ∧
    usdToWei 3000 0 = 0 ∧
    (createGiveaway [] "c9" "prize" "1h" 0 0 3000 10).2 =
      [("c9", (⟨"c9", "prize", 0, 3600000, 0, 10, [], [], true, none⟩ : Giveaway))] :=
  claim_C9_no_converter_validation [] "w9" 0 3000 (le_refl 0)

end Givemebot
